import Mathlib

/-!
Verification of the substation-report cleaning pipeline (`src/app.py`).

The development shallowly embeds the data-cleaning pipeline
`limpiar_y_procesar_xlsx` and the identifier allocator of `app.py`:
columns are lists of optional cells, the polars operations
(`fill_null(strategy="forward")`, `fill_null(0)`, `cast(pl.String)`,
`rename`) become Lean functions on those lists, and the allocator's
list comprehensions become `filter`/`map` pipelines over `List`.
-/

set_option autoImplicit false

namespace DashboardSet

/-! ### Identifier Allocator (app.py lines 154-164, 180, 208) -/

/-- `set_values = df.select("# SET").to_series().drop_nulls().unique().to_list()`:
the distinct non-absent values of the identifier column. -/
def set_values (col : List (Option String)) : List String :=
  (col.filterMap id).dedup

/-- Decimal-digit test on a character, embedding Python `str.isdigit`
restricted to the decimal digits `'0'`-`'9'` (codepoints 48-57). -/
def isDigitChar (c : Char) : Bool :=
  48 ≤ c.toNat && c.toNat ≤ 57

/-- The validity filter of line 156: `isinstance(s, str) and len(s) == 8 and
s.isdigit()` (all cells of the column are strings in the model, as the
source forces `dtype={3: str}` at read time and casts to `pl.String`). -/
def isValidSet (s : String) : Bool :=
  s.length == 8 && s.toList.all isDigitChar

/-- Python `s[-4]`: the character four places from the end (index
`len - 4`); for the 8-character valid codes this is index 4. -/
def digitNeg4 (s : String) : Char :=
  s.toList.getD (s.length - 4) ' '

/-- Python `int(s)` on a decimal-digit string. -/
def strToNat (s : String) : Nat :=
  s.toList.foldl (fun a c => a * 10 + (c.toNat - 48)) 0

/-- Line 156: `valid_sets = [s for s in set_values if ... len(s) == 8 and s.isdigit()]`. -/
def valid_sets (col : List (Option String)) : List String :=
  (set_values col).filter isValidSet

/-- Line 159: `urbano_sets = [int(s) for s in valid_sets if s[-4] < '5']`. -/
def urbano_sets (col : List (Option String)) : List Nat :=
  ((valid_sets col).filter (fun s => decide (digitNeg4 s < '5'))).map strToNat

/-- Line 163: `rural_sets = [int(s) for s in valid_sets if s[-4] == '5']`. -/
def rural_sets (col : List (Option String)) : List Nat :=
  ((valid_sets col).filter (fun s => digitNeg4 s == '5')).map strToNat

/-- Python `max` over a non-empty list of naturals (`0` on `[]`, a case the
source never reaches because it guards on emptiness first). -/
def listMax : List Nat → Nat
  | [] => 0
  | x :: xs => max x (listMax xs)

/-- Line 160: `next_urbano = max(urbano_sets) + 1 if urbano_sets else 10000000`. -/
def next_urbano (col : List (Option String)) : Nat :=
  if (urbano_sets col).isEmpty then 10000000 else listMax (urbano_sets col) + 1

/-- Line 164: `next_rural = max(rural_sets) + 1 if rural_sets else 50000000`. -/
def next_rural (col : List (Option String)) : Nat :=
  if (rural_sets col).isEmpty then 50000000 else listMax (rural_sets col) + 1

/-- Decimal digits of `n`, most significant first, with explicit fuel
(the recursion divides by 10, so fuel `n` suffices). -/
def decDigits : Nat → Nat → List Char
  | 0, _ => []
  | fuel + 1, n =>
    if n == 0 then [] else decDigits fuel (n / 10) ++ [Nat.digitChar (n % 10)]

/-- Python `f"{n:08d}"`: decimal rendering left-padded with `'0'` to width 8. -/
def format08 (n : Nat) : String :=
  let ds := if n == 0 then ['0'] else decDigits n n
  String.mk (List.replicate (8 - ds.length) '0' ++ ds)

/-- Line 180: `set_urbano = f"{next_urbano:08d}"`. -/
def set_urbano (col : List (Option String)) : String :=
  format08 (next_urbano col)

/-- Line 208: `set_rural = f"{next_rural:08d}"`. -/
def set_rural (col : List (Option String)) : String :=
  format08 (next_rural col)

/-- The concrete identifier column of the spec's §8 allocator test vector. -/
def colC1 : List (Option String) :=
  [some "10000001", some "10000002", some "abc", some "1000000", some "50000009", none]

/-! ### Fill Engine primitives (app.py lines 70-78, 102-104, 121-124) -/

/-- Forward fill with the most recently seen non-absent value carried in
`last`; embeds polars `fill_null(strategy="forward")`. -/
def ffillAux {α : Type} (last : Option α) : List (Option α) → List (Option α)
  | [] => []
  | none :: xs => last :: ffillAux last xs
  | some v :: xs => some v :: ffillAux (some v) xs

/-- `fill_null(strategy="forward")`: each absent cell takes the nearest
preceding non-absent value; leading absents stay absent. -/
def ffill {α : Type} (l : List (Option α)) : List (Option α) :=
  ffillAux none l

/-- Fold step keeping the most recent non-absent value. -/
def keepSome {α : Type} (acc : Option α) (x : Option α) : Option α :=
  match x with
  | some v => some v
  | none => acc

/-- The last non-absent value of a column segment (`none` if there is none);
used to state what forward fill writes at each position. -/
def lastSome {α : Type} (l : List (Option α)) : Option α :=
  l.foldl keepSome none

/-- `fill_null(z)`: every absent cell becomes `z`, non-absent cells are kept.
The source applies it with `0` to the numeric columns (line 102-104). -/
def fillConst {α : Type} (z : α) (l : List (Option α)) : List (Option α) :=
  l.map (fun c => some (c.getD z))

/-! ### Columns and the cleaning pipeline (app.py lines 31-126) -/

/-- A Float64 cell, modelled abstractly by its decimal rendering: the
pipeline never computes with floats, it only fills absent cells with `0.0`
and may cast a column to `String`. -/
structure FloatVal where
  render : String
deriving DecidableEq, Repr

/-- The float `0.0` used by `fill_null(0)` on float columns. -/
def floatZero : FloatVal := { render := "0.0" }

/-- The cell storage of one polars column, tagged by its inferred dtype
(`Int*`/`Float*`/`String` are the dtypes this pipeline distinguishes). -/
inductive ColCells where
  | ints (cells : List (Option Int))
  | floats (cells : List (Option FloatVal))
  | strs (cells : List (Option String))
deriving DecidableEq, Repr

/-- Forward fill of a whole column, dtype preserved. -/
def ColCells.ffillCol : ColCells → ColCells
  | .ints cs => .ints (ffill cs)
  | .floats cs => .floats (ffill cs)
  | .strs cs => .strs (ffill cs)

/-- `fill_null(0)` of a numeric column (the source only selects numeric
columns for this stage, so the string branch is never reached there). -/
def ColCells.fillZero : ColCells → ColCells
  | .ints cs => .ints (fillConst 0 cs)
  | .floats cs => .floats (fillConst floatZero cs)
  | .strs cs => .strs cs

/-- `cast(pl.String)`: identity on string columns, decimal rendering on
numeric columns. -/
def ColCells.castString : ColCells → ColCells
  | .ints cs => .strs (cs.map (Option.map (fun n : Int => toString n)))
  | .floats cs => .strs (cs.map (Option.map FloatVal.render))
  | .strs cs => .strs cs

/-- A named polars column of the renamed table. -/
structure Column where
  name : String
  cells : ColCells
deriving DecidableEq, Repr

/-- The fixed 28-name schema of line 8-16. -/
def NUEVAS_CABECERAS : List String :=
  ["Sucursal", "Area", "Distrito", "# SET", "Antifraude", "Convencional",
   "Preensamblado", "Subterraneo", "Total", "Total clientes BT",
   "Potencia total", "Cantidad trafos", "Codigo ET", "Codigo distribuidor",
   "Descripciones", "Domicilio", "Estado topologia", "Tipo SET", "Subtipo SET",
   "Urbana/Rural", "X", "Y", "Lat/Long", "Energia anual total",
   "Energia anual comercial", "Energia anual residencial",
   "Energia anual Industrial", "Energia anual otros"]

/-- The three hierarchical group columns of line 70. -/
def cols_ffill : List String := ["Sucursal", "Area", "Distrito"]

/-- `pl.col(col)`-style per-column update: apply `f` to the cells of the
columns selected by `p`, keeping every name and the column order. -/
def colApply (p : Column → Bool) (f : ColCells → ColCells) (c : Column) : Column :=
  { name := c.name, cells := if p c then f c.cells else c.cells }

/-- `with_columns` over a whole table: update each selected column in place. -/
def applyToCols (p : Column → Bool) (f : ColCells → ColCells)
    (t : List Column) : List Column :=
  t.map (colApply p f)

/-- Does the column's dtype lie in `{Int8..Int64, Float32, Float64}`
(line 87-91)? -/
def isNumericCol (c : Column) : Bool :=
  match c.cells with
  | .ints _ => true
  | .floats _ => true
  | .strs _ => false

/-- Selector of the forward-fill loops (lines 74, 121). -/
def groupPred (c : Column) : Bool := cols_ffill.contains c.name

/-- Selector of `numerical_cols` (lines 87-91): numeric dtype, not a group column. -/
def numPred (c : Column) : Bool := isNumericCol c && !(cols_ffill.contains c.name)

/-- Selector of `string_like_cols` (lines 95-99): non-numeric dtype, not a
group column. -/
def strLikePred (c : Column) : Bool := !(isNumericCol c) && !(cols_ffill.contains c.name)

/-- Selector of the dedicated `# SET` cast (line 117). -/
def setPred (c : Column) : Bool := c.name == "# SET"

/-- Line 62-64: positional rename of the raw columns to the 28 schema names. -/
def renameCols (g : List ColCells) : List Column :=
  List.zipWith (fun nm cs => { name := nm, cells := cs }) NUEVAS_CABECERAS g

/-- Lines 62-124 of `limpiar_y_procesar_xlsx` after validation: rename,
first forward fill of the group columns, zero fill of the numeric columns,
`String` cast of the string-like columns and of `# SET`, and the second
forward fill of the group columns. -/
def processTable (g : List ColCells) : List Column :=
  applyToCols groupPred ColCells.ffillCol
    (applyToCols setPred ColCells.castString
      (applyToCols strLikePred ColCells.castString
        (applyToCols numPred ColCells.fillZero
          (applyToCols groupPred ColCells.ffillCol (renameCols g)))))

/-- The schema-mismatch failure of lines 57-59, carrying the observed and
the expected column counts reported by the error message. -/
structure SchemaMismatch where
  observed : Nat
  expected : Nat
deriving DecidableEq, Repr

/-- `limpiar_y_procesar_xlsx` on an already-imported grid: the column-count
validation of lines 56-59 (`st.error` + `st.stop`, modelled as `Except.error`
so that no later stage runs), then the cleaning stages. -/
def limpiar_y_procesar (g : List ColCells) : Except SchemaMismatch (List Column) :=
  if g.length = NUEVAS_CABECERAS.length then .ok (processTable g)
  else .error { observed := g.length, expected := NUEVAS_CABECERAS.length }

/-- Modelled from the claim C10's words: the variant pipeline with the
second forward-fill pass (lines 121-124) removed, everything else as in
`processTable`. -/
def processTableNoSecond (g : List ColCells) : List Column :=
  applyToCols setPred ColCells.castString
    (applyToCols strLikePred ColCells.castString
      (applyToCols numPred ColCells.fillZero
        (applyToCols groupPred ColCells.ffillCol (renameCols g))))

/-- The variant pipeline around `processTableNoSecond`, same validation. -/
def limpiarNoSecond (g : List ColCells) : Except SchemaMismatch (List Column) :=
  if g.length = NUEVAS_CABECERAS.length then .ok (processTableNoSecond g)
  else .error { observed := g.length, expected := NUEVAS_CABECERAS.length }

/-- Column lookup by name (`df.select(name)` / `df[name]`). -/
def getColCells (t : List Column) (nm : String) : Option ColCells :=
  match t with
  | [] => none
  | c :: rest => if c.name == nm then some c.cells else getColCells rest nm

/-- The `# SET` column of the cleaned table, when the pipeline succeeds. -/
def cleanedSet (g : List ColCells) : Option ColCells :=
  match limpiar_y_procesar g with
  | .ok t => getColCells t "# SET"
  | .error _ => none

/-- A concrete 28-column raw grid whose identifier column holds the
non-8-digit string `"abc"`. -/
def gridC8 : List ColCells :=
  ColCells.strs [some "A"] :: ColCells.strs [some "B"] :: ColCells.strs [some "C"] ::
    ColCells.strs [some "abc"] :: List.replicate 24 (ColCells.ints [some 1])

/-- C1 (counterexample): on the spec's test column the allocator does NOT
return Urban `"10000003"` and Rural `"50000010"`: the code `"50000009"`
has digit `'0'` at index 4 (`s[-4]`), so it lands in the Urban partition. -/
theorem allocator_testvector_cex :
    ¬ (set_urbano colC1 = "10000003" ∧ set_rural colC1 = "50000010") := by
  decide

/-- C1 (amended): on the column `["10000001", "10000002", "abc", "1000000",
"50000009", None]` the allocator returns next Urban `"50000010"` (the valid
code `"50000009"` has digit `'0'` at index 4 and is the Urban maximum) and
next Rural `"50000000"` (the Rural partition is empty, so the floor applies). -/
theorem allocator_testvector :
    set_urbano colC1 = "50000010" ∧ set_rural colC1 = "50000000" := by
  decide

/-- C7: when the identifier column holds no valid code (empty, all absent,
or every value failing the 8-digit filter), the allocator falls back to the
floors Urban `"10000000"` and Rural `"50000000"`; both are plain results of
the same total function, not errors. -/
theorem allocator_fallback_floors (col : List (Option String))
    (h : valid_sets col = []) :
    set_urbano col = "10000000" ∧ set_rural col = "50000000" := by
  have hu : urbano_sets col = [] := by
    simp [urbano_sets, h]
  have hr : rural_sets col = [] := by
    simp [rural_sets, h]
  constructor
  · show format08 (next_urbano col) = "10000000"
    rw [next_urbano, hu]
    decide
  · show format08 (next_rural col) = "50000000"
    rw [next_rural, hr]
    decide

/-- Witness for C7 at a concrete all-invalid column. -/
theorem allocator_fallback_floors_witness :
    valid_sets [some "abc", none, some "1234"] = [] ∧
      set_urbano [some "abc", none, some "1234"] = "10000000" ∧
        set_rural [some "abc", none, some "1234"] = "50000000" :=
  ⟨by decide, allocator_fallback_floors [some "abc", none, some "1234"] (by decide)⟩

/-- A digit `'6'`-`'9'` fails both zone tests of lines 159 and 163. -/
lemma high_digit_flags (c : Char) (h : c ∈ ['6', '7', '8', '9']) :
    decide (c < '5') = false ∧ (c == '5') = false := by
  fin_cases h <;> decide

/-- Prepending a value that fails the `s[-4] < '5'` test leaves the Urban
partition unchanged. -/
lemma urbano_sets_cons_of_flag_false (col : List (Option String)) (s : String)
    (hu : decide (digitNeg4 s < '5') = false) :
    urbano_sets (some s :: col) = urbano_sets col := by
  unfold urbano_sets valid_sets set_values
  have hcons : (some s :: col).filterMap id = s :: col.filterMap id := rfl
  rw [hcons]
  by_cases hmem : s ∈ col.filterMap id
  · rw [List.dedup_cons_of_mem hmem]
  · rw [List.dedup_cons_of_not_mem hmem]
    by_cases hv : isValidSet s <;> simp [List.filter_cons, hv, hu]

/-- Prepending a value that fails the `s[-4] == '5'` test leaves the Rural
partition unchanged. -/
lemma rural_sets_cons_of_flag_false (col : List (Option String)) (s : String)
    (hr : (digitNeg4 s == '5') = false) :
    rural_sets (some s :: col) = rural_sets col := by
  unfold rural_sets valid_sets set_values
  have hcons : (some s :: col).filterMap id = s :: col.filterMap id := rfl
  rw [hcons]
  by_cases hmem : s ∈ col.filterMap id
  · rw [List.dedup_cons_of_mem hmem]
  · rw [List.dedup_cons_of_not_mem hmem]
    by_cases hv : isValidSet s <;> simp [List.filter_cons, hv, hr]

/-- C3: a valid 8-digit code whose digit at index 4 is `'6'`-`'9'` is kept
out of both the Urban and the Rural partitions, and adding it to the column
changes neither partition, neither maximum, nor either derived code. -/
theorem neither_zone_code_inert (col : List (Option String)) (s : String)
    (h1 : isValidSet s = true) (h2 : digitNeg4 s ∈ ['6', '7', '8', '9']) :
    s ∉ (valid_sets (some s :: col)).filter (fun t => decide (digitNeg4 t < '5')) ∧
      s ∉ (valid_sets (some s :: col)).filter (fun t => digitNeg4 t == '5') ∧
        urbano_sets (some s :: col) = urbano_sets col ∧
          rural_sets (some s :: col) = rural_sets col ∧
            set_urbano (some s :: col) = set_urbano col ∧
              set_rural (some s :: col) = set_rural col := by
  obtain ⟨hu, hr⟩ := high_digit_flags _ h2
  have hus := urbano_sets_cons_of_flag_false col s hu
  have hrs := rural_sets_cons_of_flag_false col s hr
  refine ⟨?_, ?_, hus, hrs, ?_, ?_⟩
  · intro hmem
    have := (List.mem_filter.mp hmem).2
    rw [hu] at this
    exact Bool.false_ne_true this
  · intro hmem
    have := (List.mem_filter.mp hmem).2
    rw [hr] at this
    exact Bool.false_ne_true this
  · unfold set_urbano next_urbano
    rw [hus]
  · unfold set_rural next_rural
    rw [hrs]

/-- Witness for C3 with the code `"10006000"` prepended to a singleton column. -/
theorem neither_zone_code_inert_witness :
    isValidSet "10006000" = true ∧ digitNeg4 "10006000" ∈ ['6', '7', '8', '9'] ∧
      (urbano_sets [some "10006000", some "10000001"] =
          urbano_sets [some "10000001"] ∧
        set_rural [some "10006000", some "10000001"] =
          set_rural [some "10000001"]) :=
  ⟨by decide, by decide, by
    obtain ⟨-, -, h3, -, -, h6⟩ :=
      neither_zone_code_inert [some "10000001"] "10006000" (by decide) (by decide)
    exact ⟨h3, h6⟩⟩

/-- C2 (counterexample): the valid code `"10006000"` has digit `'6'` at
index 4, yet the Urban scan over a column holding exactly that code is
empty, so the code is NOT treated as Urban. -/
theorem urban_high_digit_cex :
    isValidSet "10006000" = true ∧ digitNeg4 "10006000" = '6' ∧
      urbano_sets [some "10006000"] = [] := by
  decide

/-- C2 (amended): a valid 8-digit code whose digit at index 4 is `'6'`-`'9'`
is treated as neither Urban nor Rural; in particular it is excluded from the
Urban partition's scan and leaves the next Urban code unchanged. -/
theorem urban_high_digit_excluded (col : List (Option String)) (s : String)
    (h1 : isValidSet s = true) (h2 : digitNeg4 s ∈ ['6', '7', '8', '9']) :
    s ∉ (valid_sets col).filter (fun t => decide (digitNeg4 t < '5')) ∧
      next_urbano (some s :: col) = next_urbano col := by
  obtain ⟨hu, hr⟩ := high_digit_flags _ h2
  constructor
  · intro hmem
    have := (List.mem_filter.mp hmem).2
    rw [hu] at this
    exact Bool.false_ne_true this
  · unfold next_urbano
    rw [urbano_sets_cons_of_flag_false col s hu]

/-- Witness for C2's amended statement at a concrete column. -/
theorem urban_high_digit_excluded_witness :
    isValidSet "20007000" = true ∧ digitNeg4 "20007000" ∈ ['6', '7', '8', '9'] ∧
      ("20007000" ∉ (valid_sets [some "20007000"]).filter
          (fun t => decide (digitNeg4 t < '5')) ∧
        next_urbano [some "20007000", some "20007000"] =
          next_urbano [some "20007000"]) :=
  ⟨by decide, by decide,
    urban_high_digit_excluded [some "20007000"] "20007000" (by decide) (by decide)⟩

/-! ### Forward fill: positional description -/

lemma ffillAux_length {α : Type} (l : List (Option α)) :
    ∀ acc : Option α, (ffillAux acc l).length = l.length := by
  induction l with
  | nil => intro acc; rfl
  | cons x xs ih => intro acc; cases x <;> simp [ffillAux, ih]

lemma ffill_length {α : Type} (l : List (Option α)) : (ffill l).length = l.length :=
  ffillAux_length l none

/-- What `ffillAux` writes at position `i`: the fold of `keepSome` over the
first `i + 1` cells, started from the carried value. -/
lemma ffillAux_getD {α : Type} (l : List (Option α)) :
    ∀ (acc : Option α) (i : Nat), i < l.length →
      (ffillAux acc l).getD i none = (l.take (i + 1)).foldl keepSome acc := by
  induction l with
  | nil => intro acc i h; simp at h
  | cons x xs ih =>
    intro acc i h
    cases x with
    | none =>
      cases i with
      | zero => simp [ffillAux, keepSome]
      | succ n =>
        have hn : n < xs.length := by simpa using Nat.lt_of_succ_lt_succ h
        simp only [ffillAux, List.getD_cons_succ, List.take_succ_cons,
          List.foldl_cons, keepSome]
        exact ih acc n hn
    | some v =>
      cases i with
      | zero => simp [ffillAux, keepSome]
      | succ n =>
        have hn : n < xs.length := by simpa using Nat.lt_of_succ_lt_succ h
        simp only [ffillAux, List.getD_cons_succ, List.take_succ_cons,
          List.foldl_cons, keepSome]
        exact ih (some v) n hn

/-- Forward fill writes, at each position, the nearest non-absent value at
or before that position. -/
lemma ffill_getD {α : Type} (l : List (Option α)) (i : Nat) (h : i < l.length) :
    (ffill l).getD i none = lastSome (l.take (i + 1)) :=
  ffillAux_getD l none i h

lemma take_succ_getD {α : Type} (l : List (Option α)) (i : Nat) (h : i < l.length) :
    l.take (i + 1) = l.take i ++ [l.getD i none] := by
  rw [List.take_succ, List.getElem?_eq_getElem h, List.getD_eq_getElem l none h]
  rfl

/-- C5: the Fill Engine forward-fills each group column: non-absent cells
are unchanged, an absent cell takes the nearest preceding originally
non-absent value (staying absent when no such value exists, i.e. before the
first non-absent entry), and every position at or after the first
non-absent entry ends up non-absent. -/
theorem group_forward_fill_spec (nm : String) (l : List (Option String)) (i : Nat)
    (hnm : groupPred { name := nm, cells := ColCells.strs l } = true)
    (hi : i < l.length) :
    colApply groupPred ColCells.ffillCol { name := nm, cells := ColCells.strs l } =
        { name := nm, cells := ColCells.strs (ffill l) } ∧
      (ffill l).length = l.length ∧
      (∀ v, l.getD i none = some v → (ffill l).getD i none = some v) ∧
      (l.getD i none = none → (ffill l).getD i none = lastSome (l.take i)) ∧
      ((lastSome (l.take (i + 1))).isSome = true →
        ((ffill l).getD i none).isSome = true) := by
  refine ⟨by simp [colApply, hnm, ColCells.ffillCol], ffill_length l, ?_, ?_, ?_⟩
  · intro v hv
    rw [ffill_getD l i hi, take_succ_getD l i hi, hv]
    simp [lastSome, List.foldl_append, keepSome]
  · intro hv
    rw [ffill_getD l i hi, take_succ_getD l i hi, hv]
    simp [lastSome, List.foldl_append, keepSome]
  · intro hs
    rw [ffill_getD l i hi]
    exact hs

/-- Witness for C5 on the column `[none, some "x", none]` at position 2. -/
theorem group_forward_fill_spec_witness :
    groupPred { name := "Area", cells := ColCells.strs [none, some "x", none] } = true ∧
      (2 : Nat) < ([none, some "x", none] : List (Option String)).length ∧
        (ffill [none, some "x", none]).getD 2 none =
          lastSome (([none, some "x", none] : List (Option String)).take 2) :=
  ⟨by decide, by decide,
    (group_forward_fill_spec "Area" [none, some "x", none] 2 (by decide)
          (by decide)).2.2.2.1 rfl⟩

/-! ### Zero fill of the numeric measurement columns -/

lemma fillConst_getD {α : Type} (z : α) (l : List (Option α)) (i : Nat)
    (h : i < l.length) :
    (fillConst z l).getD i none = some ((l.getD i none).getD z) := by
  induction l generalizing i with
  | nil => simp at h
  | cons x xs ih =>
    cases i with
    | zero => simp [fillConst]
    | succ n =>
      have hn : n < xs.length := by simpa using Nat.lt_of_succ_lt_succ h
      simpa [fillConst] using ih n hn

lemma fillConst_spec {α : Type} (z : α) (l : List (Option α)) (i : Nat)
    (h : i < l.length) :
    (fillConst z l).length = l.length ∧
      ((fillConst z l).getD i none).isSome = true ∧
      (l.getD i none = none → (fillConst z l).getD i none = some z) ∧
      (∀ v, l.getD i none = some v → (fillConst z l).getD i none = some v) := by
  have hg := fillConst_getD z l i h
  refine ⟨by simp [fillConst], by rw [hg]; rfl, ?_, ?_⟩
  · intro hn; rw [hg, hn]; rfl
  · intro v hv; rw [hg, hv]; rfl

/-- C6: `fill_null(0)` on the numeric measurement columns (`Int` and
`Float` dtypes): afterwards no cell is absent, every originally absent cell
holds `0` (`0.0` on float columns), and every originally non-absent cell is
unchanged. -/
theorem numeric_fill_zero_spec (li : List (Option Int)) (lf : List (Option FloatVal))
    (i j : Nat) (hi : i < li.length) (hj : j < lf.length) :
    ColCells.fillZero (ColCells.ints li) = ColCells.ints (fillConst 0 li) ∧
      ColCells.fillZero (ColCells.floats lf) = ColCells.floats (fillConst floatZero lf) ∧
      (fillConst (0 : Int) li).length = li.length ∧
      ((fillConst (0 : Int) li).getD i none).isSome = true ∧
      (li.getD i none = none → (fillConst (0 : Int) li).getD i none = some 0) ∧
      (∀ v, li.getD i none = some v → (fillConst (0 : Int) li).getD i none = some v) ∧
      (fillConst floatZero lf).length = lf.length ∧
      ((fillConst floatZero lf).getD j none).isSome = true ∧
      (lf.getD j none = none → (fillConst floatZero lf).getD j none = some floatZero) ∧
      (∀ v, lf.getD j none = some v → (fillConst floatZero lf).getD j none = some v) := by
  obtain ⟨h1, h2, h3, h4⟩ := fillConst_spec (0 : Int) li i hi
  obtain ⟨h5, h6, h7, h8⟩ := fillConst_spec floatZero lf j hj
  exact ⟨rfl, rfl, h1, h2, h3, h4, h5, h6, h7, h8⟩

/-- Witness for C6 at concrete one-absent-one-present columns. -/
theorem numeric_fill_zero_spec_witness :
    (0 : Nat) < ([none, some 7] : List (Option Int)).length ∧
      (0 : Nat) < ([none] : List (Option FloatVal)).length ∧
        ((fillConst (0 : Int) [none, some 7]).getD 0 none = some 0 ∧
          (fillConst floatZero [none]).getD 0 none = some floatZero) :=
  ⟨by decide, by decide, by
    obtain ⟨-, -, -, -, h5, -, -, -, h9, -⟩ :=
      numeric_fill_zero_spec [none, some 7] [none] 0 0 (by decide) (by decide)
    exact ⟨h5 rfl, h9 rfl⟩⟩

/-! ### Schema validation -/

/-- C4: on any grid whose column count differs from 28, the pipeline halts
with a schema-mismatch error carrying the observed and the expected counts;
no cleaned table is produced and no later stage runs (the result is the
bare error). -/
theorem schema_mismatch_halts (g : List ColCells) (h : g.length ≠ 28) :
    limpiar_y_procesar g = .error { observed := g.length, expected := 28 } := by
  have h28 : NUEVAS_CABECERAS.length = 28 := rfl
  unfold limpiar_y_procesar
  rw [h28]
  simp [h]

/-- Witness for C4 on the empty grid. -/
theorem schema_mismatch_halts_witness :
    (([] : List ColCells).length ≠ 28) ∧
      limpiar_y_procesar [] = .error { observed := 0, expected := 28 } :=
  ⟨by decide, schema_mismatch_halts [] (by decide)⟩

/-! ### The second forward-fill pass is redundant (C10) -/

lemma ffillAux_idem {α : Type} (l : List (Option α)) :
    ∀ acc : Option α, ffillAux acc (ffillAux acc l) = ffillAux acc l := by
  induction l with
  | nil => intro acc; rfl
  | cons x xs ih =>
    intro acc
    cases x with
    | none => cases acc <;> simp [ffillAux, ih]
    | some v => simp [ffillAux, ih]

lemma ffill_idem {α : Type} (l : List (Option α)) : ffill (ffill l) = ffill l :=
  ffillAux_idem l none

lemma ffillCol_idem (c : ColCells) :
    ColCells.ffillCol (ColCells.ffillCol c) = ColCells.ffillCol c := by
  cases c <;> simp [ColCells.ffillCol, ffill_idem]

/-- After the first forward fill and the fill/cast stages, re-running the
group-column forward fill changes nothing, column by column: the fill and
cast selectors exclude the group columns, and forward fill is idempotent. -/
lemma second_pass_fixes (c : Column) :
    colApply groupPred ColCells.ffillCol
        (colApply setPred ColCells.castString
          (colApply strLikePred ColCells.castString
            (colApply numPred ColCells.fillZero
              (colApply groupPred ColCells.ffillCol c)))) =
      colApply setPred ColCells.castString
        (colApply strLikePred ColCells.castString
          (colApply numPred ColCells.fillZero
            (colApply groupPred ColCells.ffillCol c))) := by
  by_cases hm : c.name ∈ cols_ffill
  · have hnames : c.name = "Sucursal" ∨ c.name = "Area" ∨ c.name = "Distrito" := by
      simpa [cols_ffill] using hm
    have hsetP : c.name ≠ "# SET" := by
      rcases hnames with h | h | h <;> rw [h] <;> decide
    have e1 : colApply groupPred ColCells.ffillCol c =
        { name := c.name, cells := ColCells.ffillCol c.cells } := by
      simp [colApply, groupPred, hm]
    rw [e1]
    have e2 : colApply numPred ColCells.fillZero
        { name := c.name, cells := ColCells.ffillCol c.cells } =
          { name := c.name, cells := ColCells.ffillCol c.cells } := by
      simp [colApply, numPred, hm]
    rw [e2]
    have e3 : colApply strLikePred ColCells.castString
        { name := c.name, cells := ColCells.ffillCol c.cells } =
          { name := c.name, cells := ColCells.ffillCol c.cells } := by
      simp [colApply, strLikePred, hm]
    rw [e3]
    have e4 : colApply setPred ColCells.castString
        { name := c.name, cells := ColCells.ffillCol c.cells } =
          { name := c.name, cells := ColCells.ffillCol c.cells } := by
      simp [colApply, setPred, hsetP]
    rw [e4]
    simp [colApply, groupPred, hm, ffillCol_idem]
  · simp [colApply, groupPred, hm]

/-- Table-level version of `second_pass_fixes`. -/
lemma second_pass_fixes_table (t : List Column) :
    applyToCols groupPred ColCells.ffillCol
        (applyToCols setPred ColCells.castString
          (applyToCols strLikePred ColCells.castString
            (applyToCols numPred ColCells.fillZero
              (applyToCols groupPred ColCells.ffillCol t)))) =
      applyToCols setPred ColCells.castString
        (applyToCols strLikePred ColCells.castString
          (applyToCols numPred ColCells.fillZero
            (applyToCols groupPred ColCells.ffillCol t))) := by
  induction t with
  | nil => rfl
  | cons c t ih =>
    simp only [applyToCols, List.map_cons] at ih ⊢
    rw [second_pass_fixes c]
    exact congrArg _ (by simpa [applyToCols] using ih)

/-- C10: the second forward-fill pass over the group columns (lines
121-124) is redundant: the whole pipeline agrees, on every input grid, with
the variant pipeline that omits it, because the zero fill and the `String`
casts never touch the three group columns and forward fill is idempotent. -/
theorem second_ffill_pass_redundant (g : List ColCells) :
    limpiar_y_procesar g = limpiarNoSecond g := by
  have hpt : processTable g = processTableNoSecond g := by
    unfold processTable processTableNoSecond
    exact second_pass_fixes_table (renameCols g)
  unfold limpiar_y_procesar limpiarNoSecond
  rw [hpt]

/-! ### The identifier column of the cleaned table (C8) -/

/-- C8 (counterexample): the pipeline keeps the 3-character value `"abc"`
in the cleaned `# SET` column, so a non-absent identifier value is not
always an 8-character digit string. -/
theorem set_column_not_digits_cex :
    cleanedSet gridC8 = some (ColCells.strs [some "abc"]) ∧ "abc".length ≠ 8 := by
  constructor
  · rfl
  · decide

/-- C8 (amended): the cleaned `# SET` column reproduces the raw string
column exactly (the `String` casts are the identity on it, so leading zeros
and every raw value, 8-digit or not, are preserved unchanged). -/
theorem identifier_column_passthrough (c0 c1 c2 : ColCells)
    (cs : List (Option String)) (rest : List ColCells) (h : rest.length = 24) :
    limpiar_y_procesar (c0 :: c1 :: c2 :: ColCells.strs cs :: rest) =
        .ok (processTable (c0 :: c1 :: c2 :: ColCells.strs cs :: rest)) ∧
      getColCells (processTable (c0 :: c1 :: c2 :: ColCells.strs cs :: rest)) "# SET" =
        some (ColCells.strs cs) := by
  constructor
  · have hlen : (c0 :: c1 :: c2 :: ColCells.strs cs :: rest).length =
        NUEVAS_CABECERAS.length := by
      simp [NUEVAS_CABECERAS, h]
    simp [limpiar_y_procesar, hlen]
  · simp [processTable, applyToCols, renameCols, NUEVAS_CABECERAS, colApply,
      groupPred, numPred, strLikePred, setPred, cols_ffill, isNumericCol,
      getColCells, ColCells.castString]

/-- Witness for C8's amended statement, with a leading-zero identifier. -/
theorem identifier_column_passthrough_witness :
    (List.replicate 24 (ColCells.ints [])).length = 24 ∧
      getColCells
          (processTable (ColCells.strs [] :: ColCells.strs [] :: ColCells.strs [] ::
            ColCells.strs [some "00123456"] :: List.replicate 24 (ColCells.ints [])))
          "# SET" =
        some (ColCells.strs [some "00123456"]) :=
  ⟨by decide,
    (identifier_column_passthrough (ColCells.strs []) (ColCells.strs [])
        (ColCells.strs []) [some "00123456"] (List.replicate 24 (ColCells.ints []))
        (by decide)).2⟩

/-! ### Both derived codes format to exactly 8 digits (C9) -/

lemma list_len8 {α : Type} (l : List α) (h : l.length = 8) :
    ∃ d0 d1 d2 d3 d4 d5 d6 d7 : α, l = [d0, d1, d2, d3, d4, d5, d6, d7] := by
  rcases l with _ | ⟨d0, l⟩; · simp at h
  rcases l with _ | ⟨d1, l⟩; · simp at h
  rcases l with _ | ⟨d2, l⟩; · simp at h
  rcases l with _ | ⟨d3, l⟩; · simp at h
  rcases l with _ | ⟨d4, l⟩; · simp at h
  rcases l with _ | ⟨d5, l⟩; · simp at h
  rcases l with _ | ⟨d6, l⟩; · simp at h
  rcases l with _ | ⟨d7, l⟩; · simp at h
  rcases l with _ | ⟨d8, l⟩
  · exact ⟨d0, d1, d2, d3, d4, d5, d6, d7, rfl⟩
  · simp at h

/-- A valid code whose `s[-4]` digit passes the Urban test `< '5'` is at
most `99994999`: digit 4 contributes at most `4 * 10^3`. -/
lemma valid_urban_bound (s : String) (hv : isValidSet s = true)
    (hd : decide (digitNeg4 s < '5') = true) : strToNat s ≤ 99994999 := by
  simp only [isValidSet, Bool.and_eq_true, beq_iff_eq, List.all_eq_true] at hv
  obtain ⟨hlen, hdig⟩ := hv
  have hlen' : s.toList.length = 8 := hlen
  obtain ⟨d0, d1, d2, d3, d4, d5, d6, d7, hs⟩ := list_len8 s.toList hlen'
  have hd4 : digitNeg4 s = d4 := by
    rw [digitNeg4, hlen, hs]; rfl
  have hlt : d4.toNat < 53 := by
    rw [hd4] at hd
    have h5 := of_decide_eq_true hd
    rw [Char.lt_iff_val_lt_val] at h5
    exact h5
  have hb : ∀ c ∈ s.toList, 48 ≤ c.toNat ∧ c.toNat ≤ 57 := by
    intro c hc
    simpa [isDigitChar] using hdig c hc
  rw [hs] at hb
  have h0 := hb d0 (by simp); have h1 := hb d1 (by simp)
  have h2 := hb d2 (by simp); have h3 := hb d3 (by simp)
  have h5 := hb d5 (by simp); have h6 := hb d6 (by simp)
  have h7 := hb d7 (by simp)
  rw [strToNat, hs]
  simp only [List.foldl_cons, List.foldl_nil]
  omega

/-- A valid code whose `s[-4]` digit equals `'5'` is at most `99995999`. -/
lemma valid_rural_bound (s : String) (hv : isValidSet s = true)
    (hd : (digitNeg4 s == '5') = true) : strToNat s ≤ 99995999 := by
  simp only [isValidSet, Bool.and_eq_true, beq_iff_eq, List.all_eq_true] at hv
  obtain ⟨hlen, hdig⟩ := hv
  have hlen' : s.toList.length = 8 := hlen
  obtain ⟨d0, d1, d2, d3, d4, d5, d6, d7, hs⟩ := list_len8 s.toList hlen'
  have hd4 : digitNeg4 s = d4 := by
    rw [digitNeg4, hlen, hs]; rfl
  have heq : d4.toNat = 53 := by
    rw [hd4] at hd
    have h5 : d4 = '5' := eq_of_beq hd
    rw [h5]; rfl
  have hb : ∀ c ∈ s.toList, 48 ≤ c.toNat ∧ c.toNat ≤ 57 := by
    intro c hc
    simpa [isDigitChar] using hdig c hc
  rw [hs] at hb
  have h0 := hb d0 (by simp); have h1 := hb d1 (by simp)
  have h2 := hb d2 (by simp); have h3 := hb d3 (by simp)
  have h5 := hb d5 (by simp); have h6 := hb d6 (by simp)
  have h7 := hb d7 (by simp)
  rw [strToNat, hs]
  simp only [List.foldl_cons, List.foldl_nil]
  omega

lemma listMax_le (l : List Nat) (B : Nat) (h : ∀ x ∈ l, x ≤ B) : listMax l ≤ B := by
  induction l with
  | nil => simp [listMax]
  | cons x xs ih =>
    rw [listMax, max_le_iff]
    exact ⟨h x (by simp), ih fun y hy => h y (by simp [hy])⟩

lemma next_urbano_lt (col : List (Option String)) : next_urbano col < 100000000 := by
  rw [next_urbano]
  by_cases he : (urbano_sets col).isEmpty
  · simp [he]
  · simp only [he, if_false, Bool.false_eq_true]
    have hmax : listMax (urbano_sets col) ≤ 99994999 := by
      apply listMax_le
      intro x hx
      rw [urbano_sets] at hx
      obtain ⟨s, hs, rfl⟩ := List.mem_map.mp hx
      obtain ⟨hsv, hsd⟩ := List.mem_filter.mp hs
      have hvalid : isValidSet s = true := by
        rw [valid_sets] at hsv
        exact (List.mem_filter.mp hsv).2
      exact valid_urban_bound s hvalid hsd
    omega

lemma next_rural_lt (col : List (Option String)) : next_rural col < 100000000 := by
  rw [next_rural]
  by_cases he : (rural_sets col).isEmpty
  · simp [he]
  · simp only [he, if_false, Bool.false_eq_true]
    have hmax : listMax (rural_sets col) ≤ 99995999 := by
      apply listMax_le
      intro x hx
      rw [rural_sets] at hx
      obtain ⟨s, hs, rfl⟩ := List.mem_map.mp hx
      obtain ⟨hsv, hsd⟩ := List.mem_filter.mp hs
      have hvalid : isValidSet s = true := by
        rw [valid_sets] at hsv
        exact (List.mem_filter.mp hsv).2
      exact valid_rural_bound s hvalid hsd
    omega

lemma decDigits_len : ∀ fuel n k : Nat, n ≤ fuel → n < 10 ^ k →
    (decDigits fuel n).length ≤ k := by
  intro fuel
  induction fuel with
  | zero => intro n k _ _; simp [decDigits]
  | succ f ih =>
    intro n k hle hlt
    by_cases hn : n = 0
    · simp [decDigits, hn]
    · have hk : k ≠ 0 := by
        intro h0
        rw [h0, pow_zero] at hlt
        omega
      have h1 : n / 10 ≤ f := by omega
      have hp : 10 ^ k = 10 * 10 ^ (k - 1) := by
        conv_lhs => rw [← Nat.succ_pred_eq_of_pos (Nat.pos_of_ne_zero hk)]
        rw [pow_succ, Nat.sub_one]
        ring
      have h2 : n / 10 < 10 ^ (k - 1) := by omega
      have h3 := ih (n / 10) (k - 1) h1 h2
      rw [decDigits]
      simp only [hn, beq_iff_eq, if_false, reduceIte, List.length_append,
        List.length_cons, List.length_nil]
      omega

lemma decDigits_digits : ∀ fuel n : Nat, ∀ c ∈ decDigits fuel n, isDigitChar c = true := by
  intro fuel
  induction fuel with
  | zero => intro n c hc; simp [decDigits] at hc
  | succ f ih =>
    intro n c hc
    rw [decDigits] at hc
    by_cases hn : n = 0
    · simp [hn] at hc
    · simp only [hn, beq_iff_eq, if_false, reduceIte, List.mem_append,
        List.mem_singleton] at hc
      rcases hc with hc | hc
      · exact ih _ c hc
      · have hm : n % 10 < 10 := Nat.mod_lt _ (by norm_num)
        rw [hc]
        generalize n % 10 = m at hm
        interval_cases m <;> decide

lemma format08_spec (n : Nat) (h : n < 100000000) :
    (format08 n).length = 8 ∧ (format08 n).toList.all isDigitChar = true := by
  rw [format08]
  by_cases hn : n = 0
  · subst hn; decide
  · have hlen : (decDigits n n).length ≤ 8 := decDigits_len n n 8 le_rfl h
    have hds : ∀ c ∈ decDigits n n, isDigitChar c = true := decDigits_digits n n
    simp only [hn, beq_iff_eq, if_false, reduceIte]
    constructor
    · show (List.replicate (8 - (decDigits n n).length) '0' ++ decDigits n n).length = 8
      simp only [List.length_append, List.length_replicate]
      omega
    · show (List.replicate (8 - (decDigits n n).length) '0' ++ decDigits n n).all
          isDigitChar = true
      rw [List.all_eq_true]
      intro c hc
      rcases List.mem_append.mp hc with hc | hc
      · have : c = '0' := List.eq_of_mem_replicate hc
        rw [this]; decide
      · exact hds c hc

/-- C9: the derived next-free codes, as formatted by `f"{...:08d}"`, are
always strings of exactly 8 decimal digits: the Urban maximum is at most
`99994999` and the Rural maximum at most `99995999` (digit 4 is bounded by
the zone test), so neither max-plus-one reaches 9 digits, and the floors
are themselves 8-digit numbers. -/
theorem derived_codes_eight_digits (col : List (Option String)) :
    (set_urbano col).length = 8 ∧ (set_urbano col).toList.all isDigitChar = true ∧
      (set_rural col).length = 8 ∧ (set_rural col).toList.all isDigitChar = true := by
  obtain ⟨hu1, hu2⟩ := format08_spec (next_urbano col) (next_urbano_lt col)
  obtain ⟨hr1, hr2⟩ := format08_spec (next_rural col) (next_rural_lt col)
  exact ⟨hu1, hu2, hr1, hr2⟩

end DashboardSet
